import Mathlib

/-!
Verification of the APatch userspace CLI core (`apd/src/cli.rs`): the
process-role resolver, the privilege-authenticated supercall bridge for
loading kernel patch modules, the mount-namespace switch that gates
module-lifecycle commands, and the command router of `run()`.

The Rust code is shallowly embedded: external collaborators (the supercall
layer, the module manager, the event handlers, the root shell) are an
explicit environment of result-valued fields, and `run` is a pure function
from that environment and the parsed invocation to a result together with
the list of observable side effects, in order.
-/

namespace APatch

/-- Byte strings (Rust `String` / `CString` contents) as lists of bytes. -/
abbrev Bytes := List Nat

/-- The bytes of the alias `"kp"`. -/
def kpAlias : Bytes := [107, 112]

/-- The bytes of the alias `"su"`. -/
def suAlias : Bytes := [115, 117]

/-- The two top-level behaviours selected from the invocation name. -/
inductive ProcessRole
  | rootShell
  | managementCLI
deriving DecidableEq

/-- cli.rs lines 116-119: `std::env::args().next().unwrap_or_default()`
followed by `arg0.ends_with("kp") || arg0.ends_with("su")`.  A missing
argv[0] defaults to the empty string. -/
def resolveRole (argv0 : Option Bytes) : ProcessRole :=
  let arg0 := argv0.getD []
  if kpAlias.isSuffixOf arg0 || suAlias.isSuffixOf arg0 then
    ProcessRole.rootShell
  else
    ProcessRole.managementCLI

/-- Spec-side reading used to compare against `resolveRole`: the final path
component of a byte string, i.e. the segment after the last `'/'` (byte 47). -/
def finalPathComponent (s : Bytes) : Bytes :=
  ((s.reverse.takeWhile (fun b => b ≠ 47)).reverse)

/-- The `CString::new` conversion: it fails iff the bytes contain an
interior NUL, otherwise appends the terminating NUL (cli.rs lines 138-141). -/
def cstring_new (s : Bytes) : Option Bytes :=
  if 0 ∈ s then none else some (s ++ [0])

/-- The bytes of a null-terminated buffer with the terminator removed
(the decode direction of the round-trip). -/
def cstr_bytes (b : Bytes) : Bytes := b.dropLast

/-- The `Module` subcommand of cli.rs (lines 52-86). -/
inductive Module
  | install (zip : Bytes)
  | uninstall (id : Bytes)
  | enable (id : Bytes)
  | disable (id : Bytes)
  | action (id : Bytes)
  | list
deriving DecidableEq

/-- The `Kpmsub` subcommand of cli.rs (lines 87-96). -/
inductive Kpmsub
  | load (key : Bytes) (path : Bytes)
deriving DecidableEq

/-- The `Commands` enum of cli.rs (lines 26-50). -/
inductive Commands
  | module (command : Module)
  | kpm (command : Kpmsub)
  | postFsData
  | services
  | bootCompleted
  | uidListener
deriving DecidableEq

/-- The parsed `Args` of cli.rs (lines 12-24): the optional `--superkey`
credential plus the subcommand. -/
structure Args where
  superkey : Option Bytes
  command : Commands
deriving DecidableEq

/-- The error taxonomy of `run`: the two local `CString` input errors, the
supercall rejection carrying the raw kernel status verbatim, and opaque
errors surfaced by external collaborators (including `switch_mnt_ns`). -/
inductive Err
  | invalidKey
  | invalidPath
  | supercallFailed (code : Int)
  | external (tag : Nat)
deriving DecidableEq

/-- The event kinds delegated to the event collaborator. -/
inductive EventKind
  | postFsData
  | bootCompleted
  | services
deriving DecidableEq

/-- Observable side effects of one `run` invocation, in program order.
`scKpmLoad` records the exact null-terminated buffers, the optional args
payload and the auxiliary pointer (0 = null) passed across the kernel
boundary. -/
inductive Event
  | rootShellInvoked
  | privilegeProfile (key : Option Bytes)
  | eventDelegate (kind : EventKind) (key : Option Bytes)
  | uidListenerStart
  | scKpmLoad (key : Bytes) (path : Bytes) (args : Option Bytes) (aux : Nat)
  | switchMntNs (pid : Nat)
  | moduleDelegate (command : Module)
  | logError (e : Err)
deriving DecidableEq

/-- The external collaborators consumed by `run`, as an oracle environment.
`mnt_ns_supported` models the `#[cfg(any(target_os = "linux", target_os =
"android"))]` capability gate; `privilegeOutcome` is whatever
`supercall::privilege_apd_profile` produces, which cli.rs discards. -/
structure Env where
  sc_kpm_load : Bytes → Bytes → Option Bytes → Nat → Int
  privilegeOutcome : Except Err Unit
  mnt_ns_supported : Bool
  switch_mnt_ns : Nat → Except Err Unit
  install_module : Bytes → Except Err Unit
  uninstall_module : Bytes → Except Err Unit
  enable_module : Bytes → Except Err Unit
  disable_module : Bytes → Except Err Unit
  run_action : Bytes → Except Err Unit
  list_modules : Except Err Unit
  on_post_data_fs : Option Bytes → Except Err Unit
  on_boot_completed : Option Bytes → Except Err Unit
  on_services : Option Bytes → Except Err Unit
  start_uid_listener : Except Err Unit
  root_shell : Except Err Unit

/-- The inner `match command` of the Module branch (cli.rs lines 164-171). -/
def moduleDelegateCall (env : Env) (c : Module) : Except Err Unit :=
  match c with
  | Module.install zip => env.install_module zip
  | Module.uninstall id => env.uninstall_module id
  | Module.enable id => env.enable_module id
  | Module.disable id => env.disable_module id
  | Module.action id => env.run_action id
  | Module.list => env.list_modules

/-- Outcome of the `let result = match cli.command { ... }` expression:
the value, the side effects it performed, and whether control left `run`
through a `?` early return (which bypasses the final error logging). -/
structure Step where
  result : Except Err Unit
  events : List Event
  early : Bool

/-- The dispatch match of cli.rs lines 129-175.  The `?` on the two
`CString::new` conversions and on `switch_mnt_ns(1)` returns from `run`
directly, which is recorded in `early`. -/
def dispatch (env : Env) (cli : Args) : Step :=
  match cli.command with
  | Commands.postFsData =>
      ⟨env.on_post_data_fs cli.superkey,
        [Event.eventDelegate EventKind.postFsData cli.superkey], false⟩
  | Commands.bootCompleted =>
      ⟨env.on_boot_completed cli.superkey,
        [Event.eventDelegate EventKind.bootCompleted cli.superkey], false⟩
  | Commands.uidListener =>
      ⟨env.start_uid_listener, [Event.uidListenerStart], false⟩
  | Commands.kpm (Kpmsub.load key path) =>
      match cstring_new key with
      | none => ⟨Except.error Err.invalidKey, [], true⟩
      | some key_cstr =>
          match cstring_new path with
          | none => ⟨Except.error Err.invalidPath, [], true⟩
          | some path_cstr =>
              let ret := env.sc_kpm_load key_cstr path_cstr none 0
              ⟨if ret < 0 then Except.error (Err.supercallFailed ret)
                else Except.ok (),
                [Event.scKpmLoad key_cstr path_cstr none 0], false⟩
  | Commands.module c =>
      if env.mnt_ns_supported then
        match env.switch_mnt_ns 1 with
        | Except.error e => ⟨Except.error e, [Event.switchMntNs 1], true⟩
        | Except.ok _ =>
            ⟨moduleDelegateCall env c,
              [Event.switchMntNs 1, Event.moduleDelegate c], false⟩
      else
        ⟨moduleDelegateCall env c, [Event.moduleDelegate c], false⟩
  | Commands.services =>
      ⟨env.on_services cli.superkey,
        [Event.eventDelegate EventKind.services cli.superkey], false⟩

/-- cli.rs lines 125-127: `privilege_apd_profile(&cli.superkey)` is invoked
exactly when a superkey is present; only the invocation is observable, its
outcome being discarded. -/
def regEvents (sk : Option Bytes) : List Event :=
  if sk.isSome then [Event.privilegeProfile sk] else []

/-- The whole of `run()` (cli.rs lines 98-181): role resolution, root-shell
handoff, optional privilege registration (its outcome discarded), command
dispatch, and the final `log::error!` that fires only for errors carried in
`result` — not for errors propagated by `?`. -/
def run (env : Env) (argv0 : Option Bytes) (cli : Args) :
    Except Err Unit × List Event :=
  match resolveRole argv0 with
  | ProcessRole.rootShell => (env.root_shell, [Event.rootShellInvoked])
  | ProcessRole.managementCLI =>
      let d := dispatch env cli
      if d.early then
        (d.result, regEvents cli.superkey ++ d.events)
      else
        match d.result with
        | Except.error e =>
            (Except.error e, regEvents cli.superkey ++ d.events ++ [Event.logError e])
        | Except.ok _ => (Except.ok (), regEvents cli.superkey ++ d.events)

/-- Modelled from the spec: the process-exit translation performed by the
missing `main` wrapper around `run` — "Exit code: 0 on success; non-zero
(propagated from the underlying error) on any failure". -/
def process_outcome (r : Except Err Unit) : Nat :=
  match r with
  | Except.ok _ => 0
  | Except.error _ => 1

/-- Recognisers for trace events. -/
def isPrivilegeEv : Event → Bool
  | Event.privilegeProfile _ => true
  | _ => false

def isKpmCallEv : Event → Bool
  | Event.scKpmLoad _ _ _ _ => true
  | _ => false

def isLogEv : Event → Bool
  | Event.logError _ => true
  | _ => false

instance : DecidableEq (Except Err Unit) := fun a b =>
  match a, b with
  | Except.ok x, Except.ok y => isTrue (by rw [Unit.ext x y])
  | Except.ok _, Except.error _ => isFalse (by simp)
  | Except.error _, Except.ok _ => isFalse (by simp)
  | Except.error x, Except.error y =>
      if h : x = y then isTrue (by rw [h]) else isFalse (by simp [h])

/-- A concrete environment, for evaluating `run` on closed inputs. -/
def testEnv (status : Int) (sw : Except Err Unit) (supported : Bool) : Env where
  sc_kpm_load := fun _ _ _ _ => status
  privilegeOutcome := Except.ok ()
  mnt_ns_supported := supported
  switch_mnt_ns := fun _ => sw
  install_module := fun _ => Except.ok ()
  uninstall_module := fun _ => Except.ok ()
  enable_module := fun _ => Except.ok ()
  disable_module := fun _ => Except.ok ()
  run_action := fun _ => Except.ok ()
  list_modules := Except.ok ()
  on_post_data_fs := fun _ => Except.ok ()
  on_boot_completed := fun _ => Except.ok ()
  on_services := fun _ => Except.ok ()
  start_uid_listener := Except.ok ()
  root_shell := Except.ok ()

/-! Helper lemmas shared by the claim theorems. -/

/-- In the management-CLI role, `run` reduces to registration + dispatch +
conditional logging. -/
theorem run_mgmt (env : Env) (argv0 : Option Bytes) (cli : Args)
    (hrole : resolveRole argv0 = ProcessRole.managementCLI) :
    run env argv0 cli =
      (if (dispatch env cli).early then
        ((dispatch env cli).result, regEvents cli.superkey ++ (dispatch env cli).events)
      else
        match (dispatch env cli).result with
        | Except.error e =>
            (Except.error e,
              regEvents cli.superkey ++ (dispatch env cli).events ++ [Event.logError e])
        | Except.ok _ =>
            (Except.ok (), regEvents cli.superkey ++ (dispatch env cli).events)) := by
  unfold run
  rw [hrole]

/-- The role resolution is exactly the byte-suffix test of cli.rs line 117,
stated with the propositional suffix relation. -/
theorem resolveRole_eq_rootShell_iff (argv0 : Option Bytes) :
    resolveRole argv0 = ProcessRole.rootShell ↔
      (kpAlias <:+ argv0.getD [] ∨ suAlias <:+ argv0.getD []) := by
  have hbool :
      (kpAlias.isSuffixOf (argv0.getD []) || suAlias.isSuffixOf (argv0.getD [])) = true ↔
        (kpAlias <:+ argv0.getD [] ∨ suAlias <:+ argv0.getD []) := by
    simp [List.isSuffixOf_iff_suffix]
  by_cases h :
      (kpAlias.isSuffixOf (argv0.getD []) || suAlias.isSuffixOf (argv0.getD [])) = true
  · simp [resolveRole, h, hbool.mp h]
  · have hnot : ¬(kpAlias <:+ argv0.getD [] ∨ suAlias <:+ argv0.getD []) :=
      fun hc => h (hbool.mpr hc)
    simp [resolveRole, h, hnot]

/-- No supercall event ever sits among the registration events. -/
theorem kpmCall_not_mem_regEvents (sk : Option Bytes) (k p : Bytes)
    (a : Option Bytes) (x : Nat) :
    Event.scKpmLoad k p a x ∉ regEvents sk := by
  unfold regEvents
  cases sk <;> simp

/-- Dispatch of `kpm load` with a NUL byte in the key: early input error,
no side effect. -/
theorem dispatch_kpm_key_null (env : Env) (sk : Option Bytes) (key path : Bytes)
    (hk : 0 ∈ key) :
    dispatch env ⟨sk, Commands.kpm (Kpmsub.load key path)⟩ =
      ⟨Except.error Err.invalidKey, [], true⟩ := by
  simp [dispatch, cstring_new, hk]

/-- Dispatch of `kpm load` with a clean key but a NUL byte in the path:
early input error, no side effect. -/
theorem dispatch_kpm_path_null (env : Env) (sk : Option Bytes) (key path : Bytes)
    (hk : 0 ∉ key) (hp : 0 ∈ path) :
    dispatch env ⟨sk, Commands.kpm (Kpmsub.load key path)⟩ =
      ⟨Except.error Err.invalidPath, [], true⟩ := by
  simp [dispatch, cstring_new, hk, hp]

/-- Dispatch of `kpm load` with clean buffers: exactly one supercall with
the two null-terminated buffers, no args payload, null auxiliary pointer. -/
theorem dispatch_kpm_ok (env : Env) (sk : Option Bytes) (key path : Bytes)
    (hk : 0 ∉ key) (hp : 0 ∉ path) :
    dispatch env ⟨sk, Commands.kpm (Kpmsub.load key path)⟩ =
      ⟨if env.sc_kpm_load (key ++ [0]) (path ++ [0]) none 0 < 0 then
          Except.error
            (Err.supercallFailed (env.sc_kpm_load (key ++ [0]) (path ++ [0]) none 0))
        else Except.ok (),
        [Event.scKpmLoad (key ++ [0]) (path ++ [0]) none 0], false⟩ := by
  simp [dispatch, cstring_new, hk, hp]

/-- Dispatch of a module command when the platform supports namespace
switching and the switch fails: the error propagates early, the module
collaborator is never reached. -/
theorem dispatch_module_switch_fail (env : Env) (sk : Option Bytes) (c : Module)
    (e : Err) (hs : env.mnt_ns_supported = true)
    (he : env.switch_mnt_ns 1 = Except.error e) :
    dispatch env ⟨sk, Commands.module c⟩ =
      ⟨Except.error e, [Event.switchMntNs 1], true⟩ := by
  simp [dispatch, hs, he]

/-- Dispatch of a module command when the switch succeeds: the switch is
immediately followed by the delegation. -/
theorem dispatch_module_switch_ok (env : Env) (sk : Option Bytes) (c : Module)
    (hs : env.mnt_ns_supported = true)
    (ho : env.switch_mnt_ns 1 = Except.ok ()) :
    dispatch env ⟨sk, Commands.module c⟩ =
      ⟨moduleDelegateCall env c,
        [Event.switchMntNs 1, Event.moduleDelegate c], false⟩ := by
  simp [dispatch, hs, ho]

/-- Dispatch of a module command on a platform without the namespace-switch
capability: the switch is skipped and delegation proceeds. -/
theorem dispatch_module_unsupported (env : Env) (sk : Option Bytes) (c : Module)
    (hs : env.mnt_ns_supported = false) :
    dispatch env ⟨sk, Commands.module c⟩ =
      ⟨moduleDelegateCall env c, [Event.moduleDelegate c], false⟩ := by
  simp [dispatch, hs]

/-- Dispatch never reads the discarded outcome of privilege registration. -/
theorem dispatch_privilegeOutcome (env : Env) (o : Except Err Unit) (cli : Args) :
    dispatch { env with privilegeOutcome := o } cli = dispatch env cli := by
  obtain ⟨sk, cmd⟩ := cli
  cases cmd with
  | module c => cases c <;> simp [dispatch, moduleDelegateCall]
  | kpm k => cases k; simp [dispatch]
  | postFsData => simp [dispatch]
  | services => simp [dispatch]
  | bootCompleted => simp [dispatch]
  | uidListener => simp [dispatch]

/-- The router never reads the discarded outcome of privilege
registration. -/
theorem run_privilegeOutcome (env : Env) (o : Except Err Unit)
    (argv0 : Option Bytes) (cli : Args) :
    run { env with privilegeOutcome := o } argv0 cli = run env argv0 cli := by
  unfold run
  cases resolveRole argv0 <;> simp [dispatch_privilegeOutcome]

/-- Dispatch emits only delegation, supercall and switch events: never a
privilege-registration event and never a log event. -/
theorem dispatch_events_shape (env : Env) (cli : Args) :
    ∀ e ∈ (dispatch env cli).events,
      isPrivilegeEv e = false ∧ isLogEv e = false := by
  obtain ⟨sk, cmd⟩ := cli
  cases cmd with
  | module c =>
      by_cases hs : env.mnt_ns_supported = true
      · rcases hsw : env.switch_mnt_ns 1 with e' | u
        · rw [dispatch_module_switch_fail env sk c e' hs hsw]
          simp [isPrivilegeEv, isLogEv]
        · rw [dispatch_module_switch_ok env sk c hs hsw]
          simp [isPrivilegeEv, isLogEv]
      · simp only [Bool.not_eq_true] at hs
        rw [dispatch_module_unsupported env sk c hs]
        simp [isPrivilegeEv, isLogEv]
  | kpm k =>
      obtain ⟨key, path⟩ := k
      by_cases hk : 0 ∈ key
      · rw [dispatch_kpm_key_null env sk key path hk]
        simp
      · by_cases hp : 0 ∈ path
        · rw [dispatch_kpm_path_null env sk key path hk hp]
          simp
        · rw [dispatch_kpm_ok env sk key path hk hp]
          simp [isPrivilegeEv, isLogEv]
  | postFsData => simp [dispatch, isPrivilegeEv, isLogEv]
  | services => simp [dispatch, isPrivilegeEv, isLogEv]
  | bootCompleted => simp [dispatch, isPrivilegeEv, isLogEv]
  | uidListener => simp [dispatch, isPrivilegeEv, isLogEv]

/-- In the management-CLI role, the final result is exactly the dispatch
result: the router passes it through unmodified. -/
theorem run_result_eq_dispatch (env : Env) (argv0 : Option Bytes) (cli : Args)
    (hrole : resolveRole argv0 = ProcessRole.managementCLI) :
    (run env argv0 cli).1 = (dispatch env cli).result := by
  rw [run_mgmt env argv0 cli hrole]
  by_cases he : (dispatch env cli).early
  · simp [he]
  · rcases hr : (dispatch env cli).result with e | u <;> simp [he, hr]

/-- Registration events contain no log event. -/
theorem regEvents_no_log (sk : Option Bytes) :
    (regEvents sk).countP isLogEv = 0 := by
  cases sk <;> simp [regEvents, isLogEv]

/-- Whenever dispatch ends in an early `?` return, its result is an error. -/
theorem dispatch_early_error (env : Env) (cli : Args) :
    (dispatch env cli).early = true →
      ∃ e, (dispatch env cli).result = Except.error e := by
  obtain ⟨sk, cmd⟩ := cli
  cases cmd with
  | module c =>
      by_cases hs : env.mnt_ns_supported = true
      · rcases hsw : env.switch_mnt_ns 1 with e | u
        · rw [dispatch_module_switch_fail env sk c e hs hsw]
          exact fun _ => ⟨e, rfl⟩
        · rw [dispatch_module_switch_ok env sk c hs hsw]
          simp
      · simp only [Bool.not_eq_true] at hs
        rw [dispatch_module_unsupported env sk c hs]
        simp
  | kpm k =>
      obtain ⟨key, path⟩ := k
      by_cases hk : 0 ∈ key
      · rw [dispatch_kpm_key_null env sk key path hk]
        exact fun _ => ⟨Err.invalidKey, rfl⟩
      · by_cases hp : 0 ∈ path
        · rw [dispatch_kpm_path_null env sk key path hk hp]
          exact fun _ => ⟨Err.invalidPath, rfl⟩
        · rw [dispatch_kpm_ok env sk key path hk hp]
          simp
  | postFsData => simp [dispatch]
  | services => simp [dispatch]
  | bootCompleted => simp [dispatch]
  | uidListener => simp [dispatch]

/-- In the root-shell role, `run` only hands off to the shell collaborator. -/
theorem run_rootShell (env : Env) (argv0 : Option Bytes) (cli : Args)
    (hrole : resolveRole argv0 = ProcessRole.rootShell) :
    run env argv0 cli = (env.root_shell, [Event.rootShellInvoked]) := by
  unfold run
  rw [hrole]

/-- Every event of a `run` trace is the shell handoff, a registration
event, a dispatch event, or a log event. -/
theorem run_trace_mem (env : Env) (argv0 : Option Bytes) (cli : Args)
    (e : Event) (h : e ∈ (run env argv0 cli).2) :
    e = Event.rootShellInvoked ∨ e ∈ regEvents cli.superkey ∨
    e ∈ (dispatch env cli).events ∨ isLogEv e = true := by
  cases hrole : resolveRole argv0 with
  | rootShell =>
      rw [run_rootShell env argv0 cli hrole] at h
      simp at h
      exact Or.inl h
  | managementCLI =>
      rw [run_mgmt env argv0 cli hrole] at h
      by_cases he : (dispatch env cli).early
      · simp only [he, if_true] at h
        rcases List.mem_append.mp h with hm | hm
        · exact Or.inr (Or.inl hm)
        · exact Or.inr (Or.inr (Or.inl hm))
      · rcases hr : (dispatch env cli).result with er | u <;>
          simp only [he, Bool.false_eq_true, if_false, hr] at h
        · rcases List.mem_append.mp h with hm | hm
          · rcases List.mem_append.mp hm with h1 | h2
            · exact Or.inr (Or.inl h1)
            · exact Or.inr (Or.inr (Or.inl h2))
          · simp at hm
            subst hm
            exact Or.inr (Or.inr (Or.inr rfl))
        · rcases List.mem_append.mp h with hm | hm
          · exact Or.inr (Or.inl hm)
          · exact Or.inr (Or.inr (Or.inl hm))

/-- Every supercall event that dispatch can emit carries no args payload
and a null auxiliary pointer. -/
theorem dispatch_kpm_event_shape (env : Env) (cli : Args) (k p : Bytes)
    (a : Option Bytes) (x : Nat)
    (h : Event.scKpmLoad k p a x ∈ (dispatch env cli).events) :
    a = none ∧ x = 0 := by
  obtain ⟨sk, cmd⟩ := cli
  cases cmd with
  | kpm kc =>
      obtain ⟨key, path⟩ := kc
      by_cases hk : 0 ∈ key
      · rw [dispatch_kpm_key_null env sk key path hk] at h
        simp at h
      · by_cases hp : 0 ∈ path
        · rw [dispatch_kpm_path_null env sk key path hk hp] at h
          simp at h
        · rw [dispatch_kpm_ok env sk key path hk hp] at h
          simp at h
          exact ⟨h.2.2.1, h.2.2.2⟩
  | module c =>
      by_cases hs : env.mnt_ns_supported = true
      · rcases hsw : env.switch_mnt_ns 1 with e | u
        · rw [dispatch_module_switch_fail env sk c e hs hsw] at h
          simp at h
        · rw [dispatch_module_switch_ok env sk c hs hsw] at h
          simp at h
      · simp only [Bool.not_eq_true] at hs
        rw [dispatch_module_unsupported env sk c hs] at h
        simp at h
  | postFsData => simp [dispatch] at h
  | services => simp [dispatch] at h
  | bootCompleted => simp [dispatch] at h
  | uidListener => simp [dispatch] at h

/-- Registration events contain no supercall event (filter form). -/
theorem regEvents_filter_kpm (sk : Option Bytes) :
    (regEvents sk).filter isKpmCallEv = [] := by
  cases sk <;> simp [regEvents, isKpmCallEv]

/-! Further helper lemmas and the claim theorems. -/

/-- C1: for every signed status returned by the privileged kpm-load call,
the command succeeds exactly when the status is non-negative, and every
negative status yields the error `supercallFailed` carrying that exact
code verbatim. -/
theorem kpm_load_status_exact (env : Env) (argv0 : Option Bytes)
    (sk : Option Bytes) (key path : Bytes)
    (hrole : resolveRole argv0 = ProcessRole.managementCLI)
    (hkey : 0 ∉ key) (hpath : 0 ∉ path) :
    (run env argv0 ⟨sk, Commands.kpm (Kpmsub.load key path)⟩).1 =
      (if env.sc_kpm_load (key ++ [0]) (path ++ [0]) none 0 < 0 then
        Except.error
          (Err.supercallFailed (env.sc_kpm_load (key ++ [0]) (path ++ [0]) none 0))
      else Except.ok ()) := by
  rw [run_mgmt env argv0 _ hrole]
  simp only [dispatch, cstring_new, if_neg hkey, if_neg hpath]
  by_cases h : env.sc_kpm_load (key ++ [0]) (path ++ [0]) none 0 < 0 <;>
    simp [h]

/-- Witness for C1 at a concrete input: status `-5` surfaces as
`supercallFailed (-5)`. -/
theorem kpm_load_status_exact_witness :
    (run (testEnv (-5) (Except.ok ()) true) (some [97])
        ⟨none, Commands.kpm (Kpmsub.load [107] [112])⟩).1 =
      Except.error (Err.supercallFailed (-5)) := by
  have h := kpm_load_status_exact (testEnv (-5) (Except.ok ()) true) (some [97])
    none [107] [112] (by decide) (by decide) (by decide)
  simpa [testEnv] using h

/-- C2: an embedded NUL byte in the key or the path makes `kpm load` fail
with a local input error and the supercall is never issued. -/
theorem kpm_load_null_rejected (env : Env) (argv0 : Option Bytes)
    (sk : Option Bytes) (key path : Bytes)
    (hrole : resolveRole argv0 = ProcessRole.managementCLI)
    (h : 0 ∈ key ∨ 0 ∈ path) :
    (∃ e, (run env argv0 ⟨sk, Commands.kpm (Kpmsub.load key path)⟩).1 =
        Except.error e ∧ (e = Err.invalidKey ∨ e = Err.invalidPath)) ∧
    ∀ k p a x, Event.scKpmLoad k p a x ∉
        (run env argv0 ⟨sk, Commands.kpm (Kpmsub.load key path)⟩).2 := by
  rw [run_mgmt env argv0 _ hrole]
  by_cases hk : 0 ∈ key
  · rw [dispatch_kpm_key_null env sk key path hk]
    refine ⟨⟨Err.invalidKey, by simp, Or.inl rfl⟩, ?_⟩
    intro k p a x
    simpa using kpmCall_not_mem_regEvents sk k p a x
  · have hp : 0 ∈ path := h.resolve_left hk
    rw [dispatch_kpm_path_null env sk key path hk hp]
    refine ⟨⟨Err.invalidPath, by simp, Or.inr rfl⟩, ?_⟩
    intro k p a x
    simpa using kpmCall_not_mem_regEvents sk k p a x

/-- Witness for C2: a key containing a NUL byte is rejected locally and no
supercall event appears in the trace. -/
theorem kpm_load_null_rejected_witness :
    (∃ e, (run (testEnv 0 (Except.ok ()) true) (some [97])
        ⟨none, Commands.kpm (Kpmsub.load [0] [112])⟩).1 = Except.error e ∧
        (e = Err.invalidKey ∨ e = Err.invalidPath)) ∧
    ∀ k p a x, Event.scKpmLoad k p a x ∉
        (run (testEnv 0 (Except.ok ()) true) (some [97])
          ⟨none, Commands.kpm (Kpmsub.load [0] [112])⟩).2 :=
  kpm_load_null_rejected (testEnv 0 (Except.ok ()) true) (some [97]) none [0] [112]
    (by decide) (Or.inl (by decide))

/-- C8: for credential bytes with no NUL, encoding as a null-terminated
buffer and decoding back round-trips exactly; with a NUL byte, encoding
itself fails, and using such a credential as the kpm-load key produces an
input error with no supercall ever issued. -/
theorem cstring_roundtrip (s : Bytes) :
    (0 ∉ s → ∃ b, cstring_new s = some b ∧ cstr_bytes b = s) ∧
    (0 ∈ s → cstring_new s = none ∧
      ∀ env argv0 sk p, resolveRole argv0 = ProcessRole.managementCLI →
        (∃ e, (run env argv0 ⟨sk, Commands.kpm (Kpmsub.load s p)⟩).1 =
            Except.error e ∧ e = Err.invalidKey) ∧
        ∀ k q a x, Event.scKpmLoad k q a x ∉
            (run env argv0 ⟨sk, Commands.kpm (Kpmsub.load s p)⟩).2) := by
  constructor
  · intro h
    exact ⟨s ++ [0], by simp [cstring_new, h], by simp [cstr_bytes]⟩
  · intro h
    refine ⟨by simp [cstring_new, h], ?_⟩
    intro env argv0 sk p hrole
    rw [run_mgmt env argv0 _ hrole, dispatch_kpm_key_null env sk s p h]
    refine ⟨⟨Err.invalidKey, by simp, rfl⟩, ?_⟩
    intro k q a x
    simpa using kpmCall_not_mem_regEvents sk k q a x

/-- Witness for C8: round-trip on the byte string `[65]` and failure on
`[0]`. -/
theorem cstring_roundtrip_witness :
    (∃ b, cstring_new [65] = some b ∧ cstr_bytes b = [65]) ∧
    cstring_new [0] = none :=
  ⟨(cstring_roundtrip [65]).1 (by decide),
    ((cstring_roundtrip [0]).2 (by decide)).1⟩

/-- C3 counterexample: argv[0] = "aksu" has final path component "aksu",
which is neither alias, yet the resolver returns RootShell, because the
code tests a plain string suffix (`ends_with`), not the final path
component. -/
theorem role_final_component_counterexample :
    resolveRole (some [97, 107, 115, 117]) = ProcessRole.rootShell ∧
    finalPathComponent [97, 107, 115, 117] ≠ kpAlias ∧
    finalPathComponent [97, 107, 115, 117] ≠ suAlias := by
  decide

/-- C3 (amended): the resolver returns RootShell if and only if argv[0]
(taken as the empty string when missing) ends with "kp" or "su" as a plain
byte-string suffix; every other invocation string yields ManagementCLI. -/
theorem role_iff_suffix (argv0 : Option Bytes) :
    resolveRole argv0 = ProcessRole.rootShell ↔
      (kpAlias <:+ argv0.getD [] ∨ suAlias <:+ argv0.getD []) :=
  resolveRole_eq_rootShell_iff argv0

/-- C4: every invocation name ending in "kp" or "su" resolves to RootShell;
every other byte string — the empty string and a missing argv[0] included —
resolves to ManagementCLI, the resolver being a total function. -/
theorem role_total :
    (∀ a : Bytes, (kpAlias <:+ a ∨ suAlias <:+ a) →
      resolveRole (some a) = ProcessRole.rootShell) ∧
    (∀ a : Bytes, ¬(kpAlias <:+ a ∨ suAlias <:+ a) →
      resolveRole (some a) = ProcessRole.managementCLI) ∧
    resolveRole (some []) = ProcessRole.managementCLI ∧
    resolveRole none = ProcessRole.managementCLI := by
  refine ⟨?_, ?_, by decide, by decide⟩
  · intro a h
    exact (resolveRole_eq_rootShell_iff (some a)).mpr (by simpa using h)
  · intro a h
    have hne : resolveRole (some a) ≠ ProcessRole.rootShell :=
      fun hc => h (by simpa using (resolveRole_eq_rootShell_iff (some a)).mp hc)
    cases hr : resolveRole (some a) with
    | rootShell => exact absurd hr hne
    | managementCLI => rfl

/-- C5: when the namespace-switch capability is present, a switch to pid 1
is attempted before the module collaborator is invoked; a failed switch
aborts the command with the switch error and the collaborator is never
invoked; a successful switch immediately precedes the delegation; when the
capability is absent, the switch is skipped and delegation proceeds. -/
theorem module_ns_switch (env : Env) (argv0 : Option Bytes) (sk : Option Bytes)
    (c : Module) (hrole : resolveRole argv0 = ProcessRole.managementCLI) :
    (env.mnt_ns_supported = true →
      Event.switchMntNs 1 ∈ (run env argv0 ⟨sk, Commands.module c⟩).2 ∧
      (∀ e, env.switch_mnt_ns 1 = Except.error e →
        (run env argv0 ⟨sk, Commands.module c⟩).1 = Except.error e ∧
        Event.moduleDelegate c ∉ (run env argv0 ⟨sk, Commands.module c⟩).2) ∧
      (env.switch_mnt_ns 1 = Except.ok () →
        (∃ pre post, (run env argv0 ⟨sk, Commands.module c⟩).2 =
          pre ++ Event.switchMntNs 1 :: Event.moduleDelegate c :: post) ∧
        (run env argv0 ⟨sk, Commands.module c⟩).1 = moduleDelegateCall env c)) ∧
    (env.mnt_ns_supported = false →
      Event.switchMntNs 1 ∉ (run env argv0 ⟨sk, Commands.module c⟩).2 ∧
      Event.moduleDelegate c ∈ (run env argv0 ⟨sk, Commands.module c⟩).2 ∧
      (run env argv0 ⟨sk, Commands.module c⟩).1 = moduleDelegateCall env c) := by
  rw [run_mgmt env argv0 _ hrole]
  constructor
  · intro hs
    refine ⟨?_, ?_, ?_⟩
    · rcases hsw : env.switch_mnt_ns 1 with e | u
      · rw [dispatch_module_switch_fail env sk c e hs hsw]
        simp
      · rw [dispatch_module_switch_ok env sk c hs hsw]
        rcases hd : moduleDelegateCall env c with e | u <;> simp [hd]
    · intro e he
      rw [dispatch_module_switch_fail env sk c e hs he]
      refine ⟨by simp, ?_⟩
      cases sk <;> simp [regEvents]
    · intro ho
      rw [dispatch_module_switch_ok env sk c hs ho]
      rcases hd : moduleDelegateCall env c with e | u
      · refine ⟨⟨regEvents sk, [Event.logError e], by simp [hd]⟩, by simp [hd]⟩
      · refine ⟨⟨regEvents sk, [], by simp [hd]⟩, by simp [hd]⟩
  · intro hs
    rw [dispatch_module_unsupported env sk c hs]
    rcases hd : moduleDelegateCall env c with e | u
    · refine ⟨?_, ?_, by simp [hd]⟩ <;> cases sk <;> simp [regEvents, hd]
    · refine ⟨?_, ?_, by simp [hd]⟩ <;> cases sk <;> simp [regEvents, hd]

/-- Witness for C5: with the capability present and a failing switch, the
switch is attempted, the command aborts with the switch error, and the
module collaborator is never invoked. -/
theorem module_ns_switch_witness :
    Event.switchMntNs 1 ∈ (run (testEnv 0 (Except.error (Err.external 7)) true)
      (some [97]) ⟨none, Commands.module Module.list⟩).2 ∧
    (run (testEnv 0 (Except.error (Err.external 7)) true)
      (some [97]) ⟨none, Commands.module Module.list⟩).1 =
        Except.error (Err.external 7) ∧
    Event.moduleDelegate Module.list ∉
      (run (testEnv 0 (Except.error (Err.external 7)) true)
        (some [97]) ⟨none, Commands.module Module.list⟩).2 := by
  have h := module_ns_switch (testEnv 0 (Except.error (Err.external 7)) true)
    (some [97]) none Module.list (by decide)
  have h1 := h.1 rfl
  exact ⟨h1.1, (h1.2.1 (Err.external 7) rfl).1, (h1.2.1 (Err.external 7) rfl).2⟩

/-- C6: in the management-CLI path, privilege registration happens exactly
once, before dispatch, when a superkey is supplied, not at all when it is
absent; its outcome is discarded, never aborting the process, and the
requested command is dispatched regardless (the final result is exactly
the dispatch result). -/
theorem privilege_registration (env : Env) (o1 o2 : Except Err Unit)
    (argv0 : Option Bytes) (cli : Args)
    (hrole : resolveRole argv0 = ProcessRole.managementCLI) :
    run { env with privilegeOutcome := o1 } argv0 cli =
      run { env with privilegeOutcome := o2 } argv0 cli ∧
    (run env argv0 cli).1 = (dispatch env cli).result ∧
    (∀ k, cli.superkey = some k →
      ∃ rest, (run env argv0 cli).2 = Event.privilegeProfile (some k) :: rest ∧
        rest.countP isPrivilegeEv = 0) ∧
    (cli.superkey = none →
      (run env argv0 cli).2.countP isPrivilegeEv = 0) := by
  have hshape := dispatch_events_shape env cli
  have hcount : (dispatch env cli).events.countP isPrivilegeEv = 0 :=
    List.countP_eq_zero.mpr (fun e he => by simp [(hshape e he).1])
  refine ⟨by rw [run_privilegeOutcome env o1, run_privilegeOutcome env o2],
    run_result_eq_dispatch env argv0 cli hrole, ?_, ?_⟩
  · intro k hk
    rw [run_mgmt env argv0 cli hrole]
    by_cases he : (dispatch env cli).early
    · refine ⟨(dispatch env cli).events, ?_, hcount⟩
      simp [he, regEvents, hk]
    · rcases hr : (dispatch env cli).result with e | u
      · refine ⟨(dispatch env cli).events ++ [Event.logError e], ?_, ?_⟩
        · simp [he, hr, regEvents, hk]
        · rw [List.countP_append]
          simp [hcount, isPrivilegeEv]
      · refine ⟨(dispatch env cli).events, ?_, hcount⟩
        simp [he, hr, regEvents, hk]
  · intro hk
    rw [run_mgmt env argv0 cli hrole]
    by_cases he : (dispatch env cli).early
    · simp [he, regEvents, hk, hcount]
    · rcases hr : (dispatch env cli).result with e | u
      · simp [he, hr, regEvents, hk, List.countP_append, hcount, isPrivilegeEv]
      · simp [he, hr, regEvents, hk, hcount]

/-- Witness for C6: with a superkey present, changing the discarded
registration outcome changes nothing, and the trace starts with exactly
one registration event. -/
theorem privilege_registration_witness :
    run { testEnv 0 (Except.ok ()) true with
          privilegeOutcome := Except.error (Err.external 3) }
        (some [97]) ⟨some [75], Commands.postFsData⟩ =
      run { testEnv 0 (Except.ok ()) true with privilegeOutcome := Except.ok () }
        (some [97]) ⟨some [75], Commands.postFsData⟩ ∧
    ∃ rest,
      (run (testEnv 0 (Except.ok ()) true) (some [97])
        ⟨some [75], Commands.postFsData⟩).2 =
          Event.privilegeProfile (some [75]) :: rest ∧
      rest.countP isPrivilegeEv = 0 := by
  have h := privilege_registration (testEnv 0 (Except.ok ()) true)
    (Except.error (Err.external 3)) (Except.ok ()) (some [97])
    ⟨some [75], Commands.postFsData⟩ (by decide)
  exact ⟨h.1, h.2.2.1 [75] rfl⟩

/-- C7 counterexample: a `kpm load` whose key contains a NUL byte makes the
command fail, yet no log event is emitted — the `?` early return bypasses
the router's final `log::error!`, so "logs that error exactly once" fails. -/
theorem router_logging_counterexample :
    (∃ e, (run (testEnv 0 (Except.ok ()) true) (some [97])
        ⟨none, Commands.kpm (Kpmsub.load [0] [112])⟩).1 = Except.error e) ∧
    (run (testEnv 0 (Except.ok ()) true) (some [97])
        ⟨none, Commands.kpm (Kpmsub.load [0] [112])⟩).2.countP isLogEv = 0 :=
  ⟨⟨Err.invalidKey, by decide⟩, by decide⟩

/-- C7 (amended): the router returns the first error encountered, passes it
through unmodified, and the process outcome is non-zero exactly on error;
errors carried in the dispatch result are logged exactly once — that very
error — before returning, while errors propagated by the early `?` returns
(NUL-byte key or path, namespace-switch failure) are returned without any
log event. -/
theorem router_error_propagation (env : Env) (argv0 : Option Bytes) (cli : Args)
    (hrole : resolveRole argv0 = ProcessRole.managementCLI) :
    (run env argv0 cli).1 = (dispatch env cli).result ∧
    (process_outcome (run env argv0 cli).1 ≠ 0 ↔
      ∃ e, (run env argv0 cli).1 = Except.error e) ∧
    ((dispatch env cli).early = false →
      (∀ e, (dispatch env cli).result = Except.error e →
        (run env argv0 cli).2.countP isLogEv = 1 ∧
        Event.logError e ∈ (run env argv0 cli).2) ∧
      ((dispatch env cli).result = Except.ok () →
        (run env argv0 cli).2.countP isLogEv = 0)) ∧
    ((dispatch env cli).early = true →
      (∃ e, (run env argv0 cli).1 = Except.error e) ∧
      (run env argv0 cli).2.countP isLogEv = 0) := by
  have hres := run_result_eq_dispatch env argv0 cli hrole
  have hshape := dispatch_events_shape env cli
  have hlog0 : (dispatch env cli).events.countP isLogEv = 0 :=
    List.countP_eq_zero.mpr (fun e he => by simp [(hshape e he).2])
  refine ⟨hres, ?_, ?_, ?_⟩
  · rcases hr : (run env argv0 cli).1 with e | u
    · simp [process_outcome, hr]
    · simp [process_outcome, hr]
  · intro hne
    constructor
    · intro e herr
      rw [run_mgmt env argv0 cli hrole]
      simp only [hne, Bool.false_eq_true, if_false, herr]
      constructor
      · simp [List.countP_append, regEvents_no_log, hlog0, isLogEv]
      · simp
    · intro hok
      rw [run_mgmt env argv0 cli hrole]
      simp only [hne, Bool.false_eq_true, if_false, hok]
      simp [List.countP_append, regEvents_no_log, hlog0]
  · intro he
    refine ⟨hres ▸ dispatch_early_error env cli he, ?_⟩
    rw [run_mgmt env argv0 cli hrole]
    simp only [he, if_true]
    simp [List.countP_append, regEvents_no_log, hlog0]

/-- Witness for C7 (amended): a supercall rejection with status `-3` is
returned as that error and logged exactly once. -/
theorem router_error_propagation_witness :
    (run (testEnv (-3) (Except.ok ()) true) (some [97])
        ⟨none, Commands.kpm (Kpmsub.load [75] [80])⟩).2.countP isLogEv = 1 ∧
    Event.logError (Err.supercallFailed (-3)) ∈
      (run (testEnv (-3) (Except.ok ()) true) (some [97])
        ⟨none, Commands.kpm (Kpmsub.load [75] [80])⟩).2 := by
  have h := router_error_propagation (testEnv (-3) (Except.ok ()) true)
    (some [97]) ⟨none, Commands.kpm (Kpmsub.load [75] [80])⟩ (by decide)
  exact (h.2.2.1 (by decide)).1 (Err.supercallFailed (-3)) (by decide)

/-- C9: every privileged kpm-load call reachable from the CLI is issued
with the optional args payload absent and a null auxiliary pointer; no
invocation can make either non-trivial. -/
theorem kpm_args_always_absent (env : Env) (argv0 : Option Bytes) (cli : Args)
    (k p : Bytes) (a : Option Bytes) (x : Nat)
    (h : Event.scKpmLoad k p a x ∈ (run env argv0 cli).2) :
    a = none ∧ x = 0 := by
  rcases run_trace_mem env argv0 cli _ h with h1 | h2 | h3 | h4
  · exact absurd h1 (by simp)
  · exact absurd h2 (kpmCall_not_mem_regEvents _ k p a x)
  · exact dispatch_kpm_event_shape env cli k p a x h3
  · simp [isLogEv] at h4

/-- Witness for C9: a concrete `kpm load` issues its supercall with no args
payload and a null auxiliary pointer. -/
theorem kpm_args_always_absent_witness :
    Event.scKpmLoad [75, 0] [80, 0] none 0 ∈
      (run (testEnv 2 (Except.ok ()) true) (some [97])
        ⟨none, Commands.kpm (Kpmsub.load [75] [80])⟩).2 ∧
    ((none : Option Bytes) = none ∧ (0 : Nat) = 0) :=
  ⟨by decide,
    kpm_args_always_absent (testEnv 2 (Except.ok ()) true) (some [97])
      ⟨none, Commands.kpm (Kpmsub.load [75] [80])⟩ [75, 0] [80, 0] none 0
      (by decide)⟩

/-- C10: two `kpm load` invocations differing only in the global
`--superkey` option issue identical supercalls (same key and path buffers)
and produce identical results: the credential passed across the kernel
boundary is exclusively the positional <key> argument. -/
theorem superkey_noninterference (env : Env) (argv0 : Option Bytes)
    (key path : Bytes) (sk1 sk2 : Option Bytes) :
    (run env argv0 ⟨sk1, Commands.kpm (Kpmsub.load key path)⟩).1 =
      (run env argv0 ⟨sk2, Commands.kpm (Kpmsub.load key path)⟩).1 ∧
    (run env argv0 ⟨sk1, Commands.kpm (Kpmsub.load key path)⟩).2.filter
        isKpmCallEv =
      (run env argv0 ⟨sk2, Commands.kpm (Kpmsub.load key path)⟩).2.filter
        isKpmCallEv := by
  have hd : dispatch env ⟨sk2, Commands.kpm (Kpmsub.load key path)⟩ =
      dispatch env ⟨sk1, Commands.kpm (Kpmsub.load key path)⟩ := rfl
  cases hrole : resolveRole argv0 with
  | rootShell =>
      rw [run_rootShell env argv0 _ hrole, run_rootShell env argv0 _ hrole]
      exact ⟨rfl, rfl⟩
  | managementCLI =>
      rw [run_mgmt env argv0 _ hrole, run_mgmt env argv0 _ hrole, hd]
      by_cases he : (dispatch env ⟨sk1, Commands.kpm (Kpmsub.load key path)⟩).early
      · simp [he, List.filter_append, regEvents_filter_kpm]
      · rcases hr :
            (dispatch env ⟨sk1, Commands.kpm (Kpmsub.load key path)⟩).result with
          e | u <;>
          simp [he, hr, List.filter_append, regEvents_filter_kpm]

/-- Witness for C4 at concrete inputs: "kp" gives RootShell, "a" and the
empty or missing name give ManagementCLI. -/
theorem role_total_witness :
    resolveRole (some [107, 112]) = ProcessRole.rootShell ∧
    resolveRole (some [97]) = ProcessRole.managementCLI ∧
    resolveRole (some []) = ProcessRole.managementCLI ∧
    resolveRole none = ProcessRole.managementCLI :=
  ⟨role_total.1 [107, 112] (Or.inl (by decide)),
    role_total.2.1 [97] (by decide),
    role_total.2.2.1,
    role_total.2.2.2⟩

end APatch
